import Mathlib

/-!
Verification of the swerve-drive constants and drive commands of the
RobotBase repository, shallowly embedded in Lean 4.

The numeric constants are translated from `constants.py` into real numbers
(`ℝ`), keeping the source's names and defining expressions.  The two drive
commands (`ArcadeDrive`, `FieldRelativeDrive`) are embedded as pure functions
from the sampled joystick inputs and the preference store to the drive call
they issue, together with the list of preference reads they perform.  The
swerve kinematics and module-optimization engine is not part of the visible
source; where a claim needs it, it is modelled from the specification text
(each such definition says so in its doc comment).
-/

noncomputable section

namespace RobotBase

/-! ## Basic unit constants, from `constants.py` -/

def kInchesPerFoot : ℝ := 12

def kCentimetersPerInch : ℝ := 2.54

def kCentimetersPerMeter : ℝ := 100

def kMetersPerInch : ℝ := kCentimetersPerInch / kCentimetersPerMeter

def kMetersPerFoot : ℝ := kMetersPerInch * kInchesPerFoot

def kRadiansPerRevolution : ℝ := 2 * Real.pi

def kDegeersPerRevolution : ℝ := 360

def kRadiansPerDegree : ℝ := kRadiansPerRevolution / kDegeersPerRevolution

def kSecondsPerMinute : ℝ := 60 / 1

def kRPMPerAngularVelocity : ℝ := (1 / kRadiansPerRevolution) * kSecondsPerMinute

/-! ## Robot physical parameters -/

def kSwerveModuleCenterToRobotCenterWidth : ℝ := 10.375 * kMetersPerInch

def kSwerveModuleCenterToRobotCenterLength : ℝ := 9.375 * kMetersPerInch

/-- `pow(a² + b², 0.5)` in the source, i.e. the square root of the sum of
squares of the two center offsets. -/
def kSwerveModuleDistanceFromRobotCenter : ℝ :=
  Real.sqrt (kSwerveModuleCenterToRobotCenterWidth ^ 2 +
    kSwerveModuleCenterToRobotCenterLength ^ 2)

/-- wpimath `Translation2d`: a planar vector in meters. -/
structure Translation2d where
  x : ℝ
  y : ℝ

def kFrontLeftWheelPosition : Translation2d :=
  ⟨kSwerveModuleCenterToRobotCenterLength, kSwerveModuleCenterToRobotCenterWidth⟩

def kFrontRightWheelPosition : Translation2d :=
  ⟨kSwerveModuleCenterToRobotCenterLength, -kSwerveModuleCenterToRobotCenterWidth⟩

def kBackLeftWheelPosition : Translation2d :=
  ⟨-kSwerveModuleCenterToRobotCenterLength, kSwerveModuleCenterToRobotCenterWidth⟩

def kBackRightWheelPosition : Translation2d :=
  ⟨-kSwerveModuleCenterToRobotCenterLength, -kSwerveModuleCenterToRobotCenterWidth⟩

def kWheelDiameter : ℝ := 4 * kMetersPerInch

def kWheelRadius : ℝ := kWheelDiameter / 2

def kWheelCircumference : ℝ := kWheelRadius * 2 * Real.pi

def kWheelDistancePerRevolution : ℝ := kWheelCircumference

def kWheelDistancePerRadian : ℝ := kWheelDistancePerRevolution / kRadiansPerRevolution

def kDriveGearingRatio : ℝ := (50 / 14) * (16 / 28) * (45 / 15)

def kSteerGearingRatio : ℝ := 150 / 7

/-- `DCMotor.krakenX60().freeSpeed`: the vendor library's free speed for the
Kraken X60 motor, 6000 RPM expressed in radians / second. -/
def kMaxMotorAngularVelocity : ℝ := 6000 * kRadiansPerRevolution / kSecondsPerMinute

def kMaxWheelAngularVelocity : ℝ := kMaxMotorAngularVelocity / kDriveGearingRatio

def kMaxWheelLinearVelocity : ℝ := kWheelDistancePerRadian * kMaxWheelAngularVelocity

def kMinWheelLinearVelocity : ℝ := 0.002

/-! ## Encoder constants -/

def kCANcoderPulsesPerRevolution : ℝ := 4096

def kCANcoderPulsesPerRadian : ℝ := kCANcoderPulsesPerRevolution / kRadiansPerRevolution

def kTalonEncoderPulsesPerRevolution : ℝ := 2048

def kTalonEncoderPulsesPerRadian : ℝ :=
  kTalonEncoderPulsesPerRevolution / kRadiansPerRevolution

def kDriveEncoderPulsesPerRevolution : ℝ := kTalonEncoderPulsesPerRevolution

def kDriveEncoderPulsesPerRadian : ℝ :=
  kDriveEncoderPulsesPerRevolution / kRadiansPerRevolution

def kDriveEncoderPulsesPerMeter : ℝ :=
  kDriveEncoderPulsesPerRadian / kWheelDistancePerRadian

def kWheelEncoderPulsesPerRevolution : ℝ :=
  kDriveEncoderPulsesPerRevolution * kDriveGearingRatio

def kWheelEncoderPulsesPerRadian : ℝ :=
  kWheelEncoderPulsesPerRevolution / kRadiansPerRevolution

def kWheelEncoderPulsesPerMeter : ℝ :=
  kWheelEncoderPulsesPerRadian / kWheelDistancePerRadian

def kSteerEncoderPulsesPerRevolution : ℝ := kTalonEncoderPulsesPerRevolution

def kSteerEncoderPulsesPerRadian : ℝ :=
  kSteerEncoderPulsesPerRevolution / kRadiansPerRevolution

def kSwerveEncoderPulsesPerRevolution : ℝ :=
  kSteerEncoderPulsesPerRevolution * kSteerGearingRatio

def kSwerveEncoderPulsesPerRadian : ℝ :=
  kSwerveEncoderPulsesPerRevolution / kRadiansPerRevolution

/-! ## Absolute steer encoder offsets (documented unit: rotations) -/

def kFrontLeftAbsoluteEncoderOffset : ℝ := 256.113 / kRadiansPerDegree

def kFrontRightAbsoluteEncoderOffset : ℝ := 125.420 / kDegeersPerRevolution

def kBackLeftAbsoluteEncoderOffset : ℝ := 341.719 / kDegeersPerRevolution

def kBackRightAbsoluteEncoderOffset : ℝ := 331.260 / kDegeersPerRevolution

/-! ## Module mount-point geometry -/

/-- Cross product (z-component) of two planar vectors. -/
def cross (u v : Translation2d) : ℝ := u.x * v.y - u.y * v.x

/-- Two mount-point vectors are colinear through the robot center exactly when
their cross product vanishes. -/
def colinearThroughCenter (u v : Translation2d) : Prop := cross u v = 0

/-! ## Angles and module states

The swerve kinematics / module control engine is not part of the visible
source; the definitions below are modelled from the specification text. -/

/-- Modelled from the spec: the data model normalizes angles to the
half-open interval `(-π, π]`.  `wrapAngle x` is the unique representative of
`x` modulo `2π` lying in `(-π, π]`. -/
def wrapAngle (x : ℝ) : ℝ :=
  x - 2 * Real.pi * (⌈(x - Real.pi) / (2 * Real.pi)⌉ : ℤ)

/-- Modelled from the spec: the angular distance from one angle to another is
the magnitude of their difference wrapped to `(-π, π]`. -/
def angDist (a b : ℝ) : ℝ := |wrapAngle (b - a)|

/-- Modelled from the spec: `ModuleState` is `{speed: m/s (signed), angle:
rad, normalized to (-π, π]}`. -/
structure ModuleState where
  speed : ℝ
  angle : ℝ

/-- Modelled from the spec (§4.2 `SwerveModuleController.setTarget`, step 1,
missing from the visible source): if the angular distance from the current
angle to the target angle exceeds `π/2`, flip the target speed sign and
rotate the target angle by `π` (renormalized to `(-π, π]`); exactly `π/2`
does not flip. -/
def optimizeTarget (currentAngle : ℝ) (target : ModuleState) : ModuleState :=
  if Real.pi / 2 < angDist currentAngle target.angle then
    ⟨-target.speed, wrapAngle (target.angle + Real.pi)⟩
  else
    target

/-- Two-argument arctangent: the angle of the vector `(x, y)` in `(-π, π]`,
as used by the kinematics (`atan2(vy, vx)`). -/
def atan2 (y x : ℝ) : ℝ :=
  if 0 < x then Real.arctan (y / x)
  else if x < 0 ∧ 0 ≤ y then Real.arctan (y / x) + Real.pi
  else if x < 0 then Real.arctan (y / x) - Real.pi
  else if 0 < y then Real.pi / 2
  else if y < 0 then -(Real.pi / 2)
  else 0

/-- Modelled from the spec: a chassis-frame velocity command
(forward m/s, sideways m/s, rotation rad/s). -/
structure ChassisVelocityCommand where
  forward : ℝ
  sideways : ℝ
  rotation : ℝ

/-- Modelled from the spec (§4.3 `SwerveKinematics.toModuleStates`, missing
from the visible source), per-module core: for the module at mount point
`(x, y)`, `vx = forward - rotation*y`, `vy = sideways + rotation*x`,
`speed = hypot(vx, vy)`, `angle = atan2(vy, vx)`.  The spec's degenerate case
(all four speeds below `kMinWheelLinearVelocity`: hold the previous angles and
zero the speeds) is a four-module-level policy on top of this core and is not
exercised by the claims below. -/
def moduleTargetState (mount : Translation2d) (cmd : ChassisVelocityCommand) :
    ModuleState :=
  let vx := cmd.forward - cmd.rotation * mount.y
  let vy := cmd.sideways + cmd.rotation * mount.x
  ⟨Real.sqrt (vx ^ 2 + vy ^ 2), atan2 vy vx⟩

/-! ## Preference store and the two drive commands -/

/-- The wpilib `Preferences` store: a finite association of names to
floating-point values. -/
def PrefStore : Type := List (String × ℝ)

/-- `Preferences.getFloat(key, default)`: the stored value when the key is
present, the supplied default otherwise.  (When the Python call supplies no
default, wpilib uses `0.0`.) -/
def getFloat (s : PrefStore) (key : String) (dflt : ℝ) : ℝ :=
  match List.find? (fun p => p.1 == key) s with
  | some p => p.2
  | none => dflt

/-- Whether a key is present in the store. -/
def containsKey (s : PrefStore) (key : String) : Bool :=
  (List.find? (fun p => p.1 == key) s).isSome

/-- `Preferences.initFloat(key, value)`: stores the value only when the key
is absent; otherwise leaves the store unchanged. -/
def initFloat (s : PrefStore) (key : String) (value : ℝ) : PrefStore :=
  if containsKey s key then s else (key, value) :: s

def kRobotRelativeSensitivityKey : String := "Robot Relative Sensitivity"

/-- `DriveSubsystem.CoordinateMode`. -/
inductive CoordinateMode where
  | RobotRelative
  | FieldRelative
deriving DecidableEq

/-- The arguments of one `drive.arcadeDriveWithFactors` delegation. -/
structure DriveCall where
  forward : ℝ
  sideways : ℝ
  rotation : ℝ
  mode : CoordinateMode

/-- `ArcadeDrive.__init__` preference setup:
`Preferences.initFloat("Robot Relative Sensitivity", 0.2)`. -/
def arcadeDriveInit (prefs : PrefStore) : PrefStore :=
  initFloat prefs kRobotRelativeSensitivityKey 0.2

/-- `ArcadeDrive.execute`, as a function of the preference store and the
sampled joystick inputs: it delegates
`(forward(), 0, rotation() * getFloat("Robot Relative Sensitivity", 0.2),
RobotRelative)` and performs exactly the listed preference reads, in order. -/
def arcadeDriveExecute (prefs : PrefStore) (forward rotation : ℝ) :
    DriveCall × List String :=
  (⟨forward, 0,
    rotation * getFloat prefs kRobotRelativeSensitivityKey 0.2,
    CoordinateMode.RobotRelative⟩,
   [kRobotRelativeSensitivityKey])

/-- `FieldRelativeDrive.__init__` preference setup:
`Preferences.initFloat("Robot Relative Sensitivity", 0.4)`. -/
def fieldRelativeDriveInit (prefs : PrefStore) : PrefStore :=
  initFloat prefs kRobotRelativeSensitivityKey 0.4

/-- `FieldRelativeDrive.execute`: delegates
`(forward(), sideways(), rotation() * getFloat("Robot Relative Sensitivity"),
FieldRelative)`; the `getFloat` call supplies no default, so wpilib's default
of `0.0` applies.  The second component lists the preference reads. -/
def fieldRelativeDriveExecute (prefs : PrefStore) (forward sideways rotation : ℝ) :
    DriveCall × List String :=
  (⟨forward, sideways,
    rotation * getFloat prefs kRobotRelativeSensitivityKey 0,
    CoordinateMode.FieldRelative⟩,
   [kRobotRelativeSensitivityKey])

/-! ## Lemmas about angle wrapping -/

theorem wrapAngle_bounds (x : ℝ) :
    -Real.pi < wrapAngle x ∧ wrapAngle x ≤ Real.pi := by
  have hπ : (0 : ℝ) < Real.pi := Real.pi_pos
  have h2π : (0 : ℝ) < 2 * Real.pi := by linarith
  have h1 : (x - Real.pi) / (2 * Real.pi) ≤ ((⌈(x - Real.pi) / (2 * Real.pi)⌉ : ℤ) : ℝ) :=
    Int.le_ceil _
  have h2 : ((⌈(x - Real.pi) / (2 * Real.pi)⌉ : ℤ) : ℝ) <
      (x - Real.pi) / (2 * Real.pi) + 1 :=
    Int.ceil_lt_add_one _
  have h1' : x - Real.pi ≤ ((⌈(x - Real.pi) / (2 * Real.pi)⌉ : ℤ) : ℝ) * (2 * Real.pi) :=
    (div_le_iff₀ h2π).mp h1
  have h2' : (((⌈(x - Real.pi) / (2 * Real.pi)⌉ : ℤ) : ℝ) - 1) * (2 * Real.pi) <
      x - Real.pi := by
    have : ((⌈(x - Real.pi) / (2 * Real.pi)⌉ : ℤ) : ℝ) - 1 <
        (x - Real.pi) / (2 * Real.pi) := by linarith
    exact (lt_div_iff₀ h2π).mp this
  unfold wrapAngle
  constructor <;> nlinarith [h1', h2']

theorem wrapAngle_eq_self (x : ℝ) (h1 : -Real.pi < x) (h2 : x ≤ Real.pi) :
    wrapAngle x = x := by
  have hπ : (0 : ℝ) < Real.pi := Real.pi_pos
  have h2π : (0 : ℝ) < 2 * Real.pi := by linarith
  have hceil : ⌈(x - Real.pi) / (2 * Real.pi)⌉ = 0 := by
    have hub : (x - Real.pi) / (2 * Real.pi) ≤ 0 :=
      div_nonpos_of_nonpos_of_nonneg (by linarith) (by linarith)
    have hlb : (-1 : ℝ) < (x - Real.pi) / (2 * Real.pi) := by
      rw [lt_div_iff₀ h2π]; linarith
    have hle : ⌈(x - Real.pi) / (2 * Real.pi)⌉ ≤ 0 := by
      exact Int.ceil_le.mpr (by exact_mod_cast hub)
    have hge : (-1 : ℤ) < ⌈(x - Real.pi) / (2 * Real.pi)⌉ := by
      rw [Int.lt_ceil]; exact_mod_cast hlb
    omega
  unfold wrapAngle
  rw [hceil]
  push_cast
  ring

theorem wrapAngle_add_int_mul (x : ℝ) (k : ℤ) :
    wrapAngle (x + 2 * Real.pi * k) = wrapAngle x := by
  have hπ : (0 : ℝ) < Real.pi := Real.pi_pos
  have hne : (2 * Real.pi) ≠ 0 := by positivity
  have harg : (x + 2 * Real.pi * k - Real.pi) / (2 * Real.pi) =
      (x - Real.pi) / (2 * Real.pi) + (k : ℝ) := by
    field_simp
    ring
  unfold wrapAngle
  rw [harg, Int.ceil_add_int]
  push_cast
  ring

theorem wrapAngle_wrapAngle_add (x y : ℝ) :
    wrapAngle (wrapAngle x + y) = wrapAngle (x + y) := by
  have hx : wrapAngle x + y =
      (x + y) + 2 * Real.pi * ((-(⌈(x - Real.pi) / (2 * Real.pi)⌉) : ℤ) : ℝ) := by
    unfold wrapAngle
    push_cast
    ring
  rw [hx, wrapAngle_add_int_mul]

theorem wrapAngle_flip_bound (x : ℝ) (h : Real.pi / 2 < |wrapAngle x|) :
    |wrapAngle (x + Real.pi)| < Real.pi / 2 := by
  have hπ : (0 : ℝ) < Real.pi := Real.pi_pos
  obtain ⟨hlb, hub⟩ := wrapAngle_bounds x
  have hcomp : wrapAngle (x + Real.pi) = wrapAngle (wrapAngle x + Real.pi) := by
    rw [wrapAngle_wrapAngle_add]
  rw [hcomp]
  rcases le_or_lt (wrapAngle x) 0 with hd | hd
  · have habs : |wrapAngle x| = -(wrapAngle x) := abs_of_nonpos hd
    rw [habs] at h
    have heq : wrapAngle (wrapAngle x + Real.pi) = wrapAngle x + Real.pi :=
      wrapAngle_eq_self _ (by linarith) (by linarith)
    rw [heq, abs_of_pos (by linarith)]
    linarith
  · have habs : |wrapAngle x| = wrapAngle x := abs_of_pos hd
    rw [habs] at h
    have hsplit : wrapAngle x + Real.pi =
        (wrapAngle x - Real.pi) + 2 * Real.pi * ((1 : ℤ) : ℝ) := by
      push_cast
      ring
    rw [hsplit, wrapAngle_add_int_mul]
    have heq : wrapAngle (wrapAngle x - Real.pi) = wrapAngle x - Real.pi :=
      wrapAngle_eq_self _ (by linarith) (by linarith)
    rw [heq, abs_of_nonpos (by linarith)]
    linarith

/-! ## Positivity of the conversion factors -/

theorem kWheelDistancePerRadian_pos : 0 < kWheelDistancePerRadian := by
  unfold kWheelDistancePerRadian kWheelDistancePerRevolution kWheelCircumference
    kWheelRadius kWheelDiameter kMetersPerInch kCentimetersPerInch
    kCentimetersPerMeter kRadiansPerRevolution
  positivity

theorem kDriveEncoderPulsesPerRadian_pos : 0 < kDriveEncoderPulsesPerRadian := by
  unfold kDriveEncoderPulsesPerRadian kDriveEncoderPulsesPerRevolution
    kTalonEncoderPulsesPerRevolution kRadiansPerRevolution
  positivity

theorem kDriveEncoderPulsesPerMeter_pos : 0 < kDriveEncoderPulsesPerMeter :=
  div_pos kDriveEncoderPulsesPerRadian_pos kWheelDistancePerRadian_pos

theorem kWheelEncoderPulsesPerMeter_pos : 0 < kWheelEncoderPulsesPerMeter := by
  have h : 0 < kWheelEncoderPulsesPerRadian := by
    unfold kWheelEncoderPulsesPerRadian kWheelEncoderPulsesPerRevolution
      kDriveEncoderPulsesPerRevolution kTalonEncoderPulsesPerRevolution
      kDriveGearingRatio kRadiansPerRevolution
    positivity
  exact div_pos h kWheelDistancePerRadian_pos

theorem kSteerEncoderPulsesPerRadian_pos : 0 < kSteerEncoderPulsesPerRadian := by
  unfold kSteerEncoderPulsesPerRadian kSteerEncoderPulsesPerRevolution
    kTalonEncoderPulsesPerRevolution kRadiansPerRevolution
  positivity

theorem kSwerveEncoderPulsesPerRadian_pos : 0 < kSwerveEncoderPulsesPerRadian := by
  unfold kSwerveEncoderPulsesPerRadian kSwerveEncoderPulsesPerRevolution
    kSteerEncoderPulsesPerRevolution kTalonEncoderPulsesPerRevolution
    kSteerGearingRatio kRadiansPerRevolution
  positivity

/-! ## Claim theorems -/

/-- C1 counterexample: the claim "no two of the four mount-point vectors are
colinear through the robot center" is false as stated: the front-left and
back-right mount points are exact negatives of each other, hence colinear
through the center. -/
theorem frontLeft_backRight_colinear :
    colinearThroughCenter kFrontLeftWheelPosition kBackRightWheelPosition := by
  simp only [colinearThroughCenter, cross, kFrontLeftWheelPosition,
    kBackRightWheelPosition]
  ring

/-- C1 (amended): the diagonally opposite mount points are exact negatives of
each other (hence colinear through the center), but no two mount points
sharing a side of the robot are colinear through the center; in particular
the four mount points span the plane, which is what invertibility of the
kinematics needs. -/
theorem mountPoints_nondegenerate :
    kBackRightWheelPosition.x = -kFrontLeftWheelPosition.x ∧
    kBackRightWheelPosition.y = -kFrontLeftWheelPosition.y ∧
    kBackLeftWheelPosition.x = -kFrontRightWheelPosition.x ∧
    kBackLeftWheelPosition.y = -kFrontRightWheelPosition.y ∧
    ¬ colinearThroughCenter kFrontLeftWheelPosition kFrontRightWheelPosition ∧
    ¬ colinearThroughCenter kFrontLeftWheelPosition kBackLeftWheelPosition ∧
    ¬ colinearThroughCenter kFrontRightWheelPosition kBackRightWheelPosition ∧
    ¬ colinearThroughCenter kBackLeftWheelPosition kBackRightWheelPosition := by
  simp only [colinearThroughCenter, cross, kFrontLeftWheelPosition,
    kFrontRightWheelPosition, kBackLeftWheelPosition, kBackRightWheelPosition,
    kSwerveModuleCenterToRobotCenterLength, kSwerveModuleCenterToRobotCenterWidth,
    kMetersPerInch, kCentimetersPerInch, kCentimetersPerMeter]
  norm_num

/-- C2: for every current angle and target, the module-optimization step
produces a target whose angular distance from the current angle is at most
`π/2`; at exactly `π/2` the target is unchanged, and above `π/2` the speed
sign is flipped and the angle rotated by `π`. -/
theorem optimizeTarget_spec (c : ℝ) (t : ModuleState) :
    angDist c (optimizeTarget c t).angle ≤ Real.pi / 2 ∧
    (angDist c t.angle = Real.pi / 2 → optimizeTarget c t = t) ∧
    (Real.pi / 2 < angDist c t.angle →
      (optimizeTarget c t).speed = -t.speed ∧
      (optimizeTarget c t).angle = wrapAngle (t.angle + Real.pi)) := by
  by_cases h : Real.pi / 2 < angDist c t.angle
  · have hopt : optimizeTarget c t =
        ⟨-t.speed, wrapAngle (t.angle + Real.pi)⟩ := by
      unfold optimizeTarget
      rw [if_pos h]
    refine ⟨?_, ?_, ?_⟩
    · rw [hopt]
      show angDist c (wrapAngle (t.angle + Real.pi)) ≤ Real.pi / 2
      unfold angDist
      have hstep : wrapAngle (t.angle + Real.pi) - c =
          wrapAngle (t.angle + Real.pi) + -c := by ring
      rw [hstep, wrapAngle_wrapAngle_add]
      have hstep2 : t.angle + Real.pi + -c = (t.angle - c) + Real.pi := by ring
      rw [hstep2]
      have hd : Real.pi / 2 < |wrapAngle (t.angle - c)| := h
      exact le_of_lt (wrapAngle_flip_bound _ hd)
    · intro heq
      exact absurd heq (ne_of_gt h)
    · intro _
      rw [hopt]
      exact ⟨rfl, rfl⟩
  · have hopt : optimizeTarget c t = t := by
      unfold optimizeTarget
      rw [if_neg h]
    refine ⟨?_, fun _ => hopt, fun hlt => absurd hlt h⟩
    rw [hopt]
    exact le_of_not_lt h

/-- C2 witness: the theorem applied at the concrete pair
(current angle 0, target ⟨1, 0⟩). -/
theorem optimizeTarget_spec_witness :
    angDist 0 (optimizeTarget 0 ⟨1, 0⟩).angle ≤ Real.pi / 2 :=
  (optimizeTarget_spec 0 ⟨1, 0⟩).1

/-- C4: the drive pulses-per-meter constant is the linear scale
`kDriveEncoderPulsesPerRadian / kWheelDistancePerRadian`
(pulsesPerMeter = pulsesPerRadian / metersPerRadian), and likewise for the
wheel encoder; multiplying back by the meters-per-radian factor recovers the
pulses-per-radian factor. -/
theorem kDriveEncoderPulsesPerMeter_linear :
    kDriveEncoderPulsesPerMeter =
      kDriveEncoderPulsesPerRadian / kWheelDistancePerRadian ∧
    kDriveEncoderPulsesPerMeter * kWheelDistancePerRadian =
      kDriveEncoderPulsesPerRadian ∧
    kWheelEncoderPulsesPerMeter =
      kWheelEncoderPulsesPerRadian / kWheelDistancePerRadian ∧
    kWheelEncoderPulsesPerMeter * kWheelDistancePerRadian =
      kWheelEncoderPulsesPerRadian := by
  have hne : kWheelDistancePerRadian ≠ 0 := ne_of_gt kWheelDistancePerRadian_pos
  refine ⟨rfl, ?_, rfl, ?_⟩
  · exact div_mul_cancel₀ _ hne
  · exact div_mul_cancel₀ _ hne

/-- C5: each of the five drive/steer conversion factors is nonzero, and
scaling by the factor followed by the inverse scaling reproduces the input
exactly over the reals. -/
theorem unitConversions_invertible :
    (kDriveEncoderPulsesPerRadian ≠ 0 ∧
      ∀ x : ℝ, x * kDriveEncoderPulsesPerRadian / kDriveEncoderPulsesPerRadian = x) ∧
    (kDriveEncoderPulsesPerMeter ≠ 0 ∧
      ∀ x : ℝ, x * kDriveEncoderPulsesPerMeter / kDriveEncoderPulsesPerMeter = x) ∧
    (kWheelEncoderPulsesPerMeter ≠ 0 ∧
      ∀ x : ℝ, x * kWheelEncoderPulsesPerMeter / kWheelEncoderPulsesPerMeter = x) ∧
    (kSteerEncoderPulsesPerRadian ≠ 0 ∧
      ∀ x : ℝ, x * kSteerEncoderPulsesPerRadian / kSteerEncoderPulsesPerRadian = x) ∧
    (kSwerveEncoderPulsesPerRadian ≠ 0 ∧
      ∀ x : ℝ, x * kSwerveEncoderPulsesPerRadian / kSwerveEncoderPulsesPerRadian = x) := by
  refine ⟨⟨ne_of_gt kDriveEncoderPulsesPerRadian_pos, fun x => ?_⟩,
    ⟨ne_of_gt kDriveEncoderPulsesPerMeter_pos, fun x => ?_⟩,
    ⟨ne_of_gt kWheelEncoderPulsesPerMeter_pos, fun x => ?_⟩,
    ⟨ne_of_gt kSteerEncoderPulsesPerRadian_pos, fun x => ?_⟩,
    ⟨ne_of_gt kSwerveEncoderPulsesPerRadian_pos, fun x => ?_⟩⟩ <;>
    exact mul_div_cancel_right₀ x (by first
      | exact ne_of_gt kDriveEncoderPulsesPerRadian_pos
      | exact ne_of_gt kDriveEncoderPulsesPerMeter_pos
      | exact ne_of_gt kWheelEncoderPulsesPerMeter_pos
      | exact ne_of_gt kSteerEncoderPulsesPerRadian_pos
      | exact ne_of_gt kSwerveEncoderPulsesPerRadian_pos)

/-- C3: the front-left mount offset is (0.238, 0.263) meters to within the
spec's rounding, and a pure-rotation command of 1 rad/s gives that module a
speed of `1 × kSwerveModuleDistanceFromRobotCenter ≈ 0.355 m/s` and an angle
of `atan2(x, -y)`, perpendicular to the mount-point radius vector. -/
theorem frontLeft_pureRotation_scenario :
    |kFrontLeftWheelPosition.x - 0.238| ≤ 0.001 ∧
    |kFrontLeftWheelPosition.y - 0.263| ≤ 0.001 ∧
    (moduleTargetState kFrontLeftWheelPosition ⟨0, 0, 1⟩).speed =
      1 * kSwerveModuleDistanceFromRobotCenter ∧
    |kSwerveModuleDistanceFromRobotCenter - 0.355| ≤ 0.001 ∧
    (moduleTargetState kFrontLeftWheelPosition ⟨0, 0, 1⟩).angle =
      atan2 kFrontLeftWheelPosition.x (-kFrontLeftWheelPosition.y) := by
  refine ⟨?_, ?_, ?_, ?_, ?_⟩
  · simp only [kFrontLeftWheelPosition, kSwerveModuleCenterToRobotCenterLength,
      kMetersPerInch, kCentimetersPerInch, kCentimetersPerMeter]
    rw [abs_le]
    norm_num
  · simp only [kFrontLeftWheelPosition, kSwerveModuleCenterToRobotCenterWidth,
      kMetersPerInch, kCentimetersPerInch, kCentimetersPerMeter]
    rw [abs_le]
    norm_num
  · have h : (moduleTargetState kFrontLeftWheelPosition ⟨0, 0, 1⟩).speed =
        Real.sqrt ((0 - 1 * kFrontLeftWheelPosition.y) ^ 2 +
          (0 + 1 * kFrontLeftWheelPosition.x) ^ 2) := rfl
    rw [h, one_mul]
    unfold kSwerveModuleDistanceFromRobotCenter kFrontLeftWheelPosition
    ring_nf
  · have hval : kSwerveModuleCenterToRobotCenterWidth ^ 2 +
        kSwerveModuleCenterToRobotCenterLength ^ 2 = 0.12614894125 := by
      unfold kSwerveModuleCenterToRobotCenterWidth
        kSwerveModuleCenterToRobotCenterLength kMetersPerInch
        kCentimetersPerInch kCentimetersPerMeter
      norm_num
    unfold kSwerveModuleDistanceFromRobotCenter
    rw [hval, abs_le]
    have hub : Real.sqrt 0.12614894125 ≤ 0.356 := by
      have h1 : (0.12614894125 : ℝ) ≤ 0.356 ^ 2 := by norm_num
      have h2 : Real.sqrt (0.356 ^ 2) = 0.356 := Real.sqrt_sq (by norm_num)
      calc Real.sqrt 0.12614894125 ≤ Real.sqrt (0.356 ^ 2) := Real.sqrt_le_sqrt h1
        _ = 0.356 := h2
    have hlb : (0.354 : ℝ) ≤ Real.sqrt 0.12614894125 := by
      have h1 : (0.354 : ℝ) ^ 2 ≤ 0.12614894125 := by norm_num
      have h2 : Real.sqrt (0.354 ^ 2) = 0.354 := Real.sqrt_sq (by norm_num)
      calc (0.354 : ℝ) = Real.sqrt (0.354 ^ 2) := h2.symm
        _ ≤ Real.sqrt 0.12614894125 := Real.sqrt_le_sqrt h1
    constructor <;> linarith
  · have h : (moduleTargetState kFrontLeftWheelPosition ⟨0, 0, 1⟩).angle =
        atan2 (0 + 1 * kFrontLeftWheelPosition.x)
          (0 - 1 * kFrontLeftWheelPosition.y) := rfl
    rw [h]
    have hx : (0 : ℝ) + 1 * kFrontLeftWheelPosition.x = kFrontLeftWheelPosition.x := by
      ring
    have hy : (0 : ℝ) - 1 * kFrontLeftWheelPosition.y = -kFrontLeftWheelPosition.y := by
      ring
    rw [hx, hy]

/-- C6: on every execute call of ArcadeDrive and FieldRelativeDrive, the
"Robot Relative Sensitivity" preference is read exactly once, its value
multiplies only the rotation input, and the forward (and sideways) inputs
are passed through unscaled. -/
theorem robotRelativeSensitivity_usage :
    ∀ (prefs : PrefStore) (f s r : ℝ),
      (arcadeDriveExecute prefs f r).2 = [kRobotRelativeSensitivityKey] ∧
      (arcadeDriveExecute prefs f r).1.forward = f ∧
      (arcadeDriveExecute prefs f r).1.rotation =
        r * getFloat prefs kRobotRelativeSensitivityKey 0.2 ∧
      (fieldRelativeDriveExecute prefs f s r).2 = [kRobotRelativeSensitivityKey] ∧
      (fieldRelativeDriveExecute prefs f s r).1.forward = f ∧
      (fieldRelativeDriveExecute prefs f s r).1.sideways = s ∧
      (fieldRelativeDriveExecute prefs f s r).1.rotation =
        r * getFloat prefs kRobotRelativeSensitivityKey 0 :=
  fun _ _ _ _ => ⟨rfl, rfl, rfl, rfl, rfl, rfl, rfl⟩

/-- C6 witness: the facts at the empty store with inputs f = 1, s = 2, r = 3. -/
theorem robotRelativeSensitivity_usage_witness :
    (arcadeDriveExecute [] 1 3).2 = [kRobotRelativeSensitivityKey] ∧
    (arcadeDriveExecute [] 1 3).1.forward = 1 ∧
    (arcadeDriveExecute [] 1 3).1.rotation =
      3 * getFloat [] kRobotRelativeSensitivityKey 0.2 ∧
    (fieldRelativeDriveExecute [] 1 2 3).2 = [kRobotRelativeSensitivityKey] ∧
    (fieldRelativeDriveExecute [] 1 2 3).1.forward = 1 ∧
    (fieldRelativeDriveExecute [] 1 2 3).1.sideways = 2 ∧
    (fieldRelativeDriveExecute [] 1 2 3).1.rotation =
      3 * getFloat [] kRobotRelativeSensitivityKey 0 :=
  robotRelativeSensitivity_usage [] 1 2 3

/-- C7 counterexample: the pipeline's optimization step can output a strictly
negative speed, so the produced speed is not always within
`[0, kMaxWheelLinearVelocity]`: drive forward at 1 m/s with the front-left
module currently steered at angle `π`. -/
theorem moduleSpeed_negative_counterexample :
    ¬ (0 ≤ (optimizeTarget Real.pi
          (moduleTargetState kFrontLeftWheelPosition ⟨1, 0, 0⟩)).speed ∧
        (optimizeTarget Real.pi
          (moduleTargetState kFrontLeftWheelPosition ⟨1, 0, 0⟩)).speed ≤
          kMaxWheelLinearVelocity) := by
  have htgt : moduleTargetState kFrontLeftWheelPosition ⟨1, 0, 0⟩ =
      (⟨1, 0⟩ : ModuleState) := by
    have hs : (moduleTargetState kFrontLeftWheelPosition ⟨1, 0, 0⟩).speed =
        Real.sqrt ((1 - 0 * kFrontLeftWheelPosition.y) ^ 2 +
          (0 + 0 * kFrontLeftWheelPosition.x) ^ 2) := rfl
    have ha : (moduleTargetState kFrontLeftWheelPosition ⟨1, 0, 0⟩).angle =
        atan2 (0 + 0 * kFrontLeftWheelPosition.x)
          (1 - 0 * kFrontLeftWheelPosition.y) := rfl
    have harg : ((1 : ℝ) - 0 * kFrontLeftWheelPosition.y) ^ 2 +
        ((0 : ℝ) + 0 * kFrontLeftWheelPosition.x) ^ 2 = 1 := by ring
    have hx : ((0 : ℝ) + 0 * kFrontLeftWheelPosition.x) = 0 := by ring
    have hy : ((1 : ℝ) - 0 * kFrontLeftWheelPosition.y) = 1 := by ring
    have hspeed : (moduleTargetState kFrontLeftWheelPosition ⟨1, 0, 0⟩).speed = 1 := by
      rw [hs, harg, Real.sqrt_one]
    have hangle : (moduleTargetState kFrontLeftWheelPosition ⟨1, 0, 0⟩).angle = 0 := by
      rw [ha, hx, hy]
      unfold atan2
      rw [if_pos one_pos]
      simp [Real.arctan_zero]
    cases hm : moduleTargetState kFrontLeftWheelPosition ⟨1, 0, 0⟩
    rw [hm] at hspeed hangle
    simp only [ModuleState.mk.injEq]
    exact ⟨hspeed, hangle⟩
  have hwrap : wrapAngle ((0 : ℝ) - Real.pi) = Real.pi := by
    have h : (0 : ℝ) - Real.pi = Real.pi + 2 * Real.pi * ((-1 : ℤ) : ℝ) := by
      push_cast
      ring
    rw [h, wrapAngle_add_int_mul, wrapAngle_eq_self]
    · linarith [Real.pi_pos]
    · exact le_refl _
  have hflip : Real.pi / 2 < angDist Real.pi ((⟨1, 0⟩ : ModuleState).angle) := by
    show Real.pi / 2 < angDist Real.pi 0
    unfold angDist
    rw [hwrap, abs_of_pos Real.pi_pos]
    linarith [Real.pi_pos]
  have hopt : optimizeTarget Real.pi (⟨1, 0⟩ : ModuleState) =
      ⟨-1, wrapAngle (0 + Real.pi)⟩ := by
    unfold optimizeTarget
    rw [if_pos hflip]
  rw [htgt, hopt]
  intro hcontra
  have h0 : (0 : ℝ) ≤ -1 := hcontra.1
  norm_num at h0

/-- C7 (amended): the kinematics step always produces a nonnegative speed,
the optimization step preserves the speed's absolute value (it may negate the
sign), and therefore whenever the kinematic speed is at most
`kMaxWheelLinearVelocity` the post-optimization speed lies in
`[-kMaxWheelLinearVelocity, kMaxWheelLinearVelocity]`. -/
theorem moduleSpeed_bounds (mount : Translation2d) (cmd : ChassisVelocityCommand)
    (c : ℝ) :
    0 ≤ (moduleTargetState mount cmd).speed ∧
    |(optimizeTarget c (moduleTargetState mount cmd)).speed| =
      (moduleTargetState mount cmd).speed ∧
    ((moduleTargetState mount cmd).speed ≤ kMaxWheelLinearVelocity →
      -kMaxWheelLinearVelocity ≤
          (optimizeTarget c (moduleTargetState mount cmd)).speed ∧
        (optimizeTarget c (moduleTargetState mount cmd)).speed ≤
          kMaxWheelLinearVelocity) := by
  have hpos : 0 ≤ (moduleTargetState mount cmd).speed := Real.sqrt_nonneg _
  have habs : |(optimizeTarget c (moduleTargetState mount cmd)).speed| =
      (moduleTargetState mount cmd).speed := by
    unfold optimizeTarget
    by_cases h : Real.pi / 2 < angDist c (moduleTargetState mount cmd).angle
    · rw [if_pos h]
      show |-(moduleTargetState mount cmd).speed| = _
      rw [abs_neg, abs_of_nonneg hpos]
    · rw [if_neg h, abs_of_nonneg hpos]
  refine ⟨hpos, habs, fun hle => ?_⟩
  have : |(optimizeTarget c (moduleTargetState mount cmd)).speed| ≤
      kMaxWheelLinearVelocity := by rw [habs]; exact hle
  exact abs_le.mp this

/-- C7 witness for the amended theorem: applying it at the front-left mount
with a pure forward command. -/
theorem moduleSpeed_bounds_witness :
    0 ≤ (moduleTargetState kFrontLeftWheelPosition ⟨1, 0, 0⟩).speed :=
  (moduleSpeed_bounds kFrontLeftWheelPosition ⟨1, 0, 0⟩ 0).1

/-- C8: evaluated on the code, the front-left absolute encoder offset is
`256.113 / kRadiansPerDegree`, which exceeds 1 and differs from
`256.113 / 360`, while the other three offsets equal their calibration
reading divided by 360 and lie in `[0, 1)` — the front-left constant divides
by the wrong conversion factor. -/
theorem absoluteEncoderOffset_units :
    1 < kFrontLeftAbsoluteEncoderOffset ∧
    kFrontLeftAbsoluteEncoderOffset ≠ 256.113 / 360 ∧
    kFrontRightAbsoluteEncoderOffset = 125.420 / 360 ∧
    0 ≤ kFrontRightAbsoluteEncoderOffset ∧ kFrontRightAbsoluteEncoderOffset < 1 ∧
    kBackLeftAbsoluteEncoderOffset = 341.719 / 360 ∧
    0 ≤ kBackLeftAbsoluteEncoderOffset ∧ kBackLeftAbsoluteEncoderOffset < 1 ∧
    kBackRightAbsoluteEncoderOffset = 331.260 / 360 ∧
    0 ≤ kBackRightAbsoluteEncoderOffset ∧ kBackRightAbsoluteEncoderOffset < 1 := by
  have hπ : (0 : ℝ) < Real.pi := Real.pi_pos
  have hπ315 : Real.pi < 3.15 := Real.pi_lt_d2
  have hdeg : (0 : ℝ) < kRadiansPerDegree := by
    unfold kRadiansPerDegree kRadiansPerRevolution kDegeersPerRevolution
    positivity
  have h1 : 1 < kFrontLeftAbsoluteEncoderOffset := by
    unfold kFrontLeftAbsoluteEncoderOffset
    rw [one_lt_div hdeg]
    unfold kRadiansPerDegree kRadiansPerRevolution kDegeersPerRevolution
    rw [div_lt_iff₀ (by norm_num : (0 : ℝ) < 360)]
    linarith
  have h2 : kFrontLeftAbsoluteEncoderOffset ≠ 256.113 / 360 := by
    have hlt : (256.113 : ℝ) / 360 < 1 := by norm_num
    exact ne_of_gt (lt_trans hlt h1)
  refine ⟨h1, h2, rfl, ?_, ?_, rfl, ?_, ?_, rfl, ?_, ?_⟩ <;>
    norm_num [kFrontRightAbsoluteEncoderOffset, kBackLeftAbsoluteEncoderOffset,
      kBackRightAbsoluteEncoderOffset, kDegeersPerRevolution]

/-- C9: every ArcadeDrive execute call passes exactly 0 as the sideways
component and RobotRelative as the coordinate mode, for every pair of
joystick input values and every preference store. -/
theorem arcadeDrive_sideways_zero :
    ∀ (prefs : PrefStore) (f r : ℝ),
      (arcadeDriveExecute prefs f r).1.sideways = 0 ∧
      (arcadeDriveExecute prefs f r).1.mode = CoordinateMode.RobotRelative :=
  fun _ _ _ => ⟨rfl, rfl⟩

/-- C9 witness: the facts at the empty store with inputs f = 1, r = 3. -/
theorem arcadeDrive_sideways_zero_witness :
    (arcadeDriveExecute [] 1 3).1.sideways = 0 ∧
    (arcadeDriveExecute [] 1 3).1.mode = CoordinateMode.RobotRelative :=
  arcadeDrive_sideways_zero [] 1 3

/-- C10: both drive commands initialize the single preference key
"Robot Relative Sensitivity" (with defaults 0.2 and 0.4); initialization is a
no-op when the key is present, so on an initially empty store the first
constructed command fixes the stored default; both commands scale their
rotation input by the value under this one shared key. -/
theorem sharedSensitivityKey :
    getFloat (fieldRelativeDriveInit (arcadeDriveInit []))
      kRobotRelativeSensitivityKey 0 = 0.2 ∧
    getFloat (arcadeDriveInit (fieldRelativeDriveInit []))
      kRobotRelativeSensitivityKey 0 = 0.4 ∧
    (∀ prefs : PrefStore, containsKey prefs kRobotRelativeSensitivityKey = true →
      arcadeDriveInit prefs = prefs ∧ fieldRelativeDriveInit prefs = prefs) ∧
    (∀ (prefs : PrefStore) (f s r : ℝ),
      (arcadeDriveExecute prefs f r).1.rotation =
        r * getFloat prefs kRobotRelativeSensitivityKey 0.2 ∧
      (fieldRelativeDriveExecute prefs f s r).1.rotation =
        r * getFloat prefs kRobotRelativeSensitivityKey 0) := by
  refine ⟨?_, ?_, ?_, fun _ _ _ _ => ⟨rfl, rfl⟩⟩
  · simp [arcadeDriveInit, fieldRelativeDriveInit, initFloat, containsKey,
      getFloat, List.find?]
  · simp [arcadeDriveInit, fieldRelativeDriveInit, initFloat, containsKey,
      getFloat, List.find?]
  · intro prefs h
    constructor <;> simp [arcadeDriveInit, fieldRelativeDriveInit, initFloat, h]

end RobotBase
